import Mathlib

/-!
Verification development for the MIPS simulator backend
(`MIPS_Sim_Backend.js`).  The JavaScript class `MIPSSimulator` is embedded
shallowly: JS `Number` values flowing through bitwise operators are modelled
with explicit `% 2^32` conversions (`toUint32` / `toInt32`), the
`Uint32Array(32)` register file as a `List Nat` of 32 entries, the
`Uint8Array(0x10000)` memory as a function `Nat → Nat`, and thrown JS
exceptions as `Except String`.  Display-only fields (`originalLine`,
`debugLog`, `usedMemoryAddresses`) are omitted; no claim touches them.
-/

namespace MIPSSim

/-- JS `x >>> 0` (ToUint32) applied to an arbitrary integer. -/
def toUint32 (i : Int) : Nat := (i % 4294967296).toNat

/-- Reinterpret an unsigned 32-bit value as a signed two's-complement
32-bit integer (JS `x | 0` on a value already reduced mod 2^32). -/
def toInt32 (n : Nat) : Int :=
  let m := n % 4294967296
  if m < 2147483648 then (m : Int) else (m : Int) - 4294967296

/-- JS ToInt32 on an arbitrary integer. -/
def toInt32I (i : Int) : Int := toInt32 (toUint32 i)

/-- JS `(value << 16) >> 16` from `signExtend16` in the source: shift the
low 16 bits up to the sign position and arithmetic-shift back down.  The
net effect is sign extension of the low 16 bits of `v`. -/
def signExtend16 (v : Int) : Int :=
  Int.fdiv (toInt32I (v * 65536)) 65536

/-! ### Character-list string utilities

The JS source works on strings with `trim`, `split`, `toLowerCase`,
`replace(/,$/,'')` and regular expressions.  These are re-implemented
structurally over `List Char` so that every definition is executable by
the kernel. -/

def isWs (c : Char) : Bool :=
  c = ' ' || c = '\t' || c = '\n' || c = '\r' || c = '\x0b' || c = '\x0c'

def trimChars (cs : List Char) : List Char :=
  ((cs.dropWhile isWs).reverse.dropWhile isWs).reverse

/-- JS `arg.replace(/,$/, '')`: remove one trailing comma if present. -/
def stripTrailingComma (cs : List Char) : List Char :=
  match cs.reverse with
  | ',' :: rest => rest.reverse
  | _ => cs

def lowerChars (cs : List Char) : List Char := cs.map Char.toLower

/-- Split a character list at every occurrence of `sep` (JS `split`). -/
def splitOnChar (sep : Char) (cs : List Char) : List (List Char) :=
  match cs with
  | [] => [[]]
  | c :: rest =>
    let r := splitOnChar sep rest
    if c = sep then [] :: r
    else match r with
         | [] => [[c]]
         | g :: gs => (c :: g) :: gs

/-- Tokenize on whitespace (JS `line.match(/\S+/g)`). -/
def tokensAux (cur : List Char) (acc : List (List Char)) :
    List Char → List (List Char)
  | [] => (if cur = [] then acc else cur.reverse :: acc).reverse
  | c :: rest =>
    if isWs c then
      tokensAux [] (if cur = [] then acc else cur.reverse :: acc) rest
    else
      tokensAux (c :: cur) acc rest

def tokenize (cs : List Char) : List (List Char) := tokensAux [] [] cs

def isDecDigit (c : Char) : Bool := '0' ≤ c ∧ c ≤ '9'

def isHexDigitCh (c : Char) : Bool :=
  isDecDigit c || ('a' ≤ c ∧ c ≤ 'f') || ('A' ≤ c ∧ c ≤ 'F')

def hexVal (c : Char) : Nat :=
  if isDecDigit c then c.toNat - 48
  else if 'a' ≤ c ∧ c ≤ 'f' then c.toNat - 87
  else c.toNat - 55

def isIdentChar (c : Char) : Bool :=
  isDecDigit c || ('a' ≤ c ∧ c ≤ 'z') || ('A' ≤ c ∧ c ≤ 'Z') || c = '_'

def isIdentStart (c : Char) : Bool :=
  ('a' ≤ c ∧ c ≤ 'z') || ('A' ≤ c ∧ c ≤ 'Z') || c = '_'

/-- Fold a digit prefix; returns `none` when no leading digit exists
(JS `parseInt` yielding `NaN`).  Like `parseInt`, parsing stops at the
first character that is not a digit of the base. -/
def parseDigitsAux (valid : Char → Bool) (base : Nat) (acc : Nat) :
    List Char → Nat
  | [] => acc
  | c :: rest =>
    if valid c then parseDigitsAux valid base (acc * base + hexVal c) rest
    else acc

def parseDigits (valid : Char → Bool) (base : Nat) (cs : List Char) :
    Option Nat :=
  match cs with
  | [] => none
  | c :: _ => if valid c then some (parseDigitsAux valid base 0 cs) else none

/-! ### Register-name and opcode tables (constructor of `MIPSSimulator`) -/

/-- `this.regNames` from the constructor. -/
def regNames (s : String) : Option Nat :=
  match s with
  | "$zero" => some 0 | "$at" => some 1 | "$v0" => some 2 | "$v1" => some 3
  | "$a0" => some 4 | "$a1" => some 5 | "$a2" => some 6 | "$a3" => some 7
  | "$t0" => some 8 | "$t1" => some 9 | "$t2" => some 10 | "$t3" => some 11
  | "$t4" => some 12 | "$t5" => some 13 | "$t6" => some 14 | "$t7" => some 15
  | "$s0" => some 16 | "$s1" => some 17 | "$s2" => some 18 | "$s3" => some 19
  | "$s4" => some 20 | "$s5" => some 21 | "$s6" => some 22 | "$s7" => some 23
  | "$t8" => some 24 | "$t9" => some 25 | "$k0" => some 26 | "$k1" => some 27
  | "$gp" => some 28 | "$sp" => some 29 | "$fp" => some 30 | "$ra" => some 31
  | _ => none

/-- `this.opcodes` from the constructor. -/
def opcodes (s : String) : Option Nat :=
  match s with
  | "R" => some 0x00
  | "j" => some 0x02 | "jal" => some 0x03
  | "beq" => some 0x04 | "bne" => some 0x05
  | "blez" => some 0x06 | "bgtz" => some 0x07
  | "addi" => some 0x08 | "addiu" => some 0x09
  | "slti" => some 0x0a | "sltiu" => some 0x0b
  | "andi" => some 0x0c | "ori" => some 0x0d
  | "xori" => some 0x0e | "lui" => some 0x0f
  | "lb" => some 0x20 | "lh" => some 0x21 | "lwl" => some 0x22
  | "lw" => some 0x23 | "lbu" => some 0x24 | "lhu" => some 0x25
  | "lwr" => some 0x26
  | "sb" => some 0x28 | "sh" => some 0x29 | "swl" => some 0x2a
  | "sw" => some 0x2b | "swr" => some 0x2e
  | _ => none

/-- `this.functCodes` from the constructor. -/
def functCodes (s : String) : Option Nat :=
  match s with
  | "sll" => some 0x00 | "srl" => some 0x02 | "sra" => some 0x03
  | "sllv" => some 0x04 | "srlv" => some 0x06 | "srav" => some 0x07
  | "jr" => some 0x08 | "jalr" => some 0x09
  | "syscall" => some 0x0c | "mfhi" => some 0x10 | "mthi" => some 0x11
  | "mflo" => some 0x12 | "mtlo" => some 0x13
  | "mult" => some 0x18 | "multu" => some 0x19
  | "div" => some 0x1a | "divu" => some 0x1b
  | "add" => some 0x20 | "addu" => some 0x21
  | "sub" => some 0x22 | "subu" => some 0x23
  | "and" => some 0x24 | "or" => some 0x25 | "xor" => some 0x26
  | "nor" => some 0x27 | "slt" => some 0x2a | "sltu" => some 0x2b
  | _ => none

/-! ### `parseRegister` and `parseImmediate` -/

/-- `parseRegister(reg)`: trim, drop one trailing comma, then accept
`$0`…`$31` (all-digit suffix) or a named register (case-insensitive);
anything else throws `Invalid register: …`. -/
def parseRegister (reg : String) : Except String Nat :=
  let cs := stripTrailingComma (trimChars reg.data)
  match cs with
  | '$' :: numStr =>
    let num := parseDigits isDecDigit 10 numStr
    -- JS: !isNaN(num) && num >= 0 && num < 32 && /^\d+$/.test(numStr)
    if numStr ≠ [] ∧ numStr.all isDecDigit ∧ (num.getD 32) < 32 then
      Except.ok (num.getD 32)
    else
      match regNames (String.mk (lowerChars cs)) with
      | some n => Except.ok n
      | none => Except.error ("Invalid register: " ++ String.mk cs)
  | _ => Except.error ("Invalid register: " ++ String.mk cs)

/-- `parseImmediate(imm)` on a string: decimal, `0x`/`0X` hex or
`0b`/`0B` binary; `none` models JS `NaN`.  Like `parseInt`, a valid
digit prefix is accepted and trailing garbage ignored. -/
def parseImmediateStr (s : String) : Option Int :=
  let cs := trimChars s.data
  match cs with
  | '0' :: 'x' :: rest => (parseDigits isHexDigitCh 16 rest).map Int.ofNat
  | '0' :: 'X' :: rest => (parseDigits isHexDigitCh 16 rest).map Int.ofNat
  | '0' :: 'b' :: rest =>
    (parseDigits (fun c => c = '0' || c = '1') 2 rest).map Int.ofNat
  | '0' :: 'B' :: rest =>
    (parseDigits (fun c => c = '0' || c = '1') 2 rest).map Int.ofNat
  | '-' :: rest => (parseDigits isDecDigit 10 rest).map (fun n => -(n : Int))
  | '+' :: rest => (parseDigits isDecDigit 10 rest).map Int.ofNat
  | _ => (parseDigits isDecDigit 10 cs).map Int.ofNat

/-! ### Line parsing (`parseLine`) -/

/-- A parsed operand: either a raw token or the structured
`offset(base)` memory operand recognized by `parseArgs`. -/
inductive Arg where
  | tok : String → Arg
  | offsetReg : Int → String → Arg
deriving DecidableEq, Repr

/-- JS string conversion of an operand as it reaches `parseRegister`
(an `offset_reg` object stringifies to `[object Object]`). -/
def argStr (a : Arg) : String :=
  match a with
  | .tok s => s
  | .offsetReg _ _ => "[object Object]"

/-- Recognize `^(-?\d+)\(([^)]+)\)$` on an already comma-stripped and
trimmed operand (the `offset_reg` case of `parseArgs`). -/
def matchOffsetReg (cs : List Char) : Option (Int × String) :=
  let (neg, body) := match cs with
                     | '-' :: rest => (true, rest)
                     | _ => (false, cs)
  let digits := body.takeWhile isDecDigit
  let after := body.drop digits.length
  if digits = [] then none
  else
    match after with
    | '(' :: more =>
      let inner := more.takeWhile (fun c => c ≠ ')')
      let tailPart := more.drop inner.length
      if inner ≠ [] ∧ tailPart = [')'] then
        let n : Int := parseDigitsAux isDecDigit 10 0 digits
        some ((if neg then -n else n),
              String.mk (trimChars inner))
      else none
    | _ => none

def parseArg (t : List Char) : Arg :=
  let a := trimChars (stripTrailingComma t)
  match matchOffsetReg a with
  | some (off, reg) => Arg.offsetReg off reg
  | none => Arg.tok (String.mk a)

/-- Result of `parseLine`: nothing, a bare label, or an instruction with
an optional leading label. -/
inductive ParsedLine where
  | labelOnly : String → ParsedLine
  | instr : Option String → String → List Arg → ParsedLine
deriving DecidableEq, Repr

/-- `parseLine(line)`: strip `#` comments, trim, peel an optional
`identifier:` label, then tokenize into mnemonic and operands. -/
def parseLine (line : String) : Option ParsedLine :=
  let cs := trimChars ((splitOnChar '#' line.data).headD [])
  if cs = [] then none
  else
    -- label regex ^([a-zA-Z_][a-zA-Z0-9_]*):\s*(.*)$
    let ident := cs.takeWhile isIdentChar
    let afterIdent := cs.drop ident.length
    let hasLabel := ident ≠ [] ∧ (ident.headD ' ').isDigit = false ∧
                    isIdentStart (ident.headD ' ') ∧
                    afterIdent.headD ' ' = ':'
    let label : Option String :=
      if hasLabel then some (String.mk ident) else none
    let body := if hasLabel then trimChars (afterIdent.drop 1) else cs
    if hasLabel ∧ body = [] then
      some (ParsedLine.labelOnly (String.mk ident))
    else
      match tokenize body with
      | [] => label.map ParsedLine.labelOnly
      | mn :: rest =>
        some (ParsedLine.instr label (String.mk (lowerChars mn))
              (rest.map parseArg))

/-! ### Encoders -/

/-- The `immediate` argument of `encodeIType` as JS receives it: a string
token, a number (branch offsets and load/store offsets), or an object
(whose `.trim()` call would raise a `TypeError`). -/
inductive ImmOperand where
  | str : String → ImmOperand
  | num : Int → ImmOperand
  | obj : ImmOperand
deriving DecidableEq, Repr

/-- `parseImmediate(imm)` as called inside the encoders: numbers pass
through, strings are parsed (`none` = `NaN`), objects raise. -/
def parseImmediateJs (imm : ImmOperand) : Except String (Option Int) :=
  match imm with
  | .num i => Except.ok (some i)
  | .str s => Except.ok (parseImmediateStr s)
  | .obj => Except.error "imm.trim is not a function"

/-- The shift-amount operand of `encodeRType` (`shamt = 0` by default;
`sll`/`srl`/`sra` pass `parseImmediate(args[2])`, which may be `NaN`,
modelled by `none`). -/
def shamtBits (shamt : Option Int) : Nat :=
  -- JS `shamt << 6` inside the OR chain: ToInt32(shamt) * 64 mod 2^32
  -- (ToInt32(NaN) = 0).
  toUint32 ((shamt.getD 0) * 64)

/-- `encodeRType(mnemonic, rd, rs, rt, shamt)`.  The OR chain
`opcode<<26 | rs<<21 | rt<<16 | rd<<11 | shamt<<6 | funct` followed by
`>>> 0` is computed on the unsigned bit patterns. -/
def encodeRType (mnemonic rd rs rt : String) (shamt : Option Int) :
    Except String Nat := do
  let opcode := (opcodes "R").getD 0
  let funct := (functCodes mnemonic).getD 0
  let rdNum ← parseRegister rd
  let rsNum ← parseRegister rs
  let rtNum ← parseRegister rt
  pure (Nat.lor (Nat.lor (Nat.lor (Nat.lor (Nat.lor (opcode * 2 ^ 26)
          (rsNum * 2 ^ 21)) (rtNum * 2 ^ 16)) (rdNum * 2 ^ 11))
          (shamtBits shamt)) funct)

/-- `encodeIType(mnemonic, rt, rs, immediate)`.  In JS
`imm16 = (imm < 0) ? (imm & 0xffff) : imm` followed by
`instruction |= (imm16 & 0xffff)` always contributes the low 16 bits of
`imm` (and `NaN & 0xffff` is 0). -/
def encodeIType (mnemonic rt rs : String) (immediate : ImmOperand) :
    Except String Nat := do
  match opcodes mnemonic with
  | none => Except.error ("Unknown I-type instruction: " ++ mnemonic)
  | some opcode =>
    let rtNum ← parseRegister rt
    let rsNum ← parseRegister rs
    let imm ← parseImmediateJs immediate
    let immField : Nat := match imm with
      | none => 0
      | some v => (v % 65536).toNat
    pure (Nat.lor (Nat.lor (Nat.lor (opcode * 2 ^ 26) (rsNum * 2 ^ 21))
            (rtNum * 2 ^ 16)) immField)

/-- `encodeJType(mnemonic, address)`: 26-bit field is
`(addr >>> 2) & 0x3ffffff`. -/
def encodeJType (mnemonic : String) (addr : Int) : Except String Nat :=
  match opcodes mnemonic with
  | none => Except.error ("Unknown J-type instruction: " ++ mnemonic)
  | some opcode =>
    Except.ok (Nat.lor (opcode * 2 ^ 26) (toUint32 addr / 4 % 67108864))

/-- Result of `encodeInstruction`: a finished 32-bit word, or a pending
branch/jump record (`{type:'branch'|'jump', mnemonic, args, encoded:null}`)
resolved during the second pass of `loadProgram`. -/
inductive Encoded where
  | word : Nat → Encoded
  | branch : String → List Arg → Encoded
  | jump : String → List Arg → Encoded
deriving DecidableEq, Repr

def immOperandOfArg (a : Arg) : ImmOperand :=
  match a with
  | .tok s => ImmOperand.str s
  | .offsetReg _ _ => ImmOperand.obj

/-- The `parseImmediate(args[2])` call used for the `sll`/`srl`/`sra`
shift amount, on the raw operand (an object operand raises). -/
def parseImmediateArg (a : Arg) : Except String (Option Int) :=
  match a with
  | .tok s => Except.ok (parseImmediateStr s)
  | .offsetReg _ _ => Except.error "imm.trim is not a function"

/-- Body of the `switch` in `encodeInstruction` (inside its `try`). -/
def encodeInstructionCore (mnemonic : String) (args : List Arg) :
    Except String Encoded :=
  match mnemonic with
  | "add" | "addu" | "sub" | "subu" | "and" | "or" | "xor" | "nor"
  | "slt" | "sltu" =>
    if args.length ≠ 3 then
      Except.error ("Invalid arguments for " ++ mnemonic)
    else do
      let w ← encodeRType mnemonic (argStr (args.getD 0 (.tok "undefined")))
                (argStr (args.getD 2 (.tok "undefined")))
                (argStr (args.getD 1 (.tok "undefined"))) (some 0)
      pure (Encoded.word w)
  | "sll" | "srl" | "sra" =>
    if args.length ≠ 3 then
      Except.error ("Invalid arguments for " ++ mnemonic)
    else do
      let sh ← parseImmediateArg (args.getD 2 (.tok "undefined"))
      let w ← encodeRType mnemonic (argStr (args.getD 0 (.tok "undefined")))
                (argStr (args.getD 1 (.tok "undefined"))) "$zero" sh
      pure (Encoded.word w)
  | "sllv" | "srlv" | "srav" =>
    if args.length ≠ 3 then
      Except.error ("Invalid arguments for " ++ mnemonic)
    else do
      let w ← encodeRType mnemonic (argStr (args.getD 0 (.tok "undefined")))
                (argStr (args.getD 2 (.tok "undefined")))
                (argStr (args.getD 1 (.tok "undefined"))) (some 0)
      pure (Encoded.word w)
  | "jr" =>
    if args.length ≠ 1 then
      Except.error ("Invalid arguments for " ++ mnemonic)
    else do
      let w ← encodeRType "jr" "$zero"
                (argStr (args.getD 0 (.tok "undefined"))) "$zero" (some 0)
      pure (Encoded.word w)
  | "mfhi" | "mflo" =>
    if args.length ≠ 1 then
      Except.error ("Invalid arguments for " ++ mnemonic)
    else do
      let w ← encodeRType mnemonic (argStr (args.getD 0 (.tok "undefined")))
                "$zero" "$zero" (some 0)
      pure (Encoded.word w)
  | "mult" | "multu" | "div" | "divu" =>
    if args.length ≠ 2 then
      Except.error ("Invalid arguments for " ++ mnemonic)
    else do
      let w ← encodeRType mnemonic "$zero"
                (argStr (args.getD 0 (.tok "undefined")))
                (argStr (args.getD 1 (.tok "undefined"))) (some 0)
      pure (Encoded.word w)
  | "syscall" => do
    let w ← encodeRType "syscall" "$zero" "$zero" "$zero" (some 0)
    pure (Encoded.word w)
  | "nop" => Except.ok (Encoded.word 0)
  | "addi" | "addiu" | "andi" | "ori" | "xori" | "slti" | "sltiu" =>
    if args.length ≠ 3 then
      Except.error ("Invalid arguments for " ++ mnemonic)
    else do
      let w ← encodeIType mnemonic (argStr (args.getD 0 (.tok "undefined")))
                (argStr (args.getD 1 (.tok "undefined")))
                (immOperandOfArg (args.getD 2 (.tok "undefined")))
      pure (Encoded.word w)
  | "lui" =>
    if args.length ≠ 2 then
      Except.error ("Invalid arguments for " ++ mnemonic)
    else do
      let w ← encodeIType "lui" (argStr (args.getD 0 (.tok "undefined")))
                "$zero" (immOperandOfArg (args.getD 1 (.tok "undefined")))
      pure (Encoded.word w)
  | "lw" | "lh" | "lb" | "sw" | "sh" | "sb" =>
    if args.length ≠ 2 then
      Except.error ("Invalid arguments for " ++ mnemonic)
    else
      match args.getD 1 (.tok "undefined") with
      | .offsetReg off reg => do
        let w ← encodeIType mnemonic
                  (argStr (args.getD 0 (.tok "undefined"))) reg
                  (ImmOperand.num off)
        pure (Encoded.word w)
      | .tok _ => Except.error "Invalid memory access format"
  | "beq" | "bne" =>
    if args.length ≠ 3 then
      Except.error ("Invalid arguments for " ++ mnemonic)
    else Except.ok (Encoded.branch mnemonic args)
  | "bgtz" | "blez" =>
    if args.length ≠ 2 then
      Except.error ("Invalid arguments for " ++ mnemonic)
    else Except.ok (Encoded.branch mnemonic args)
  | "j" | "jal" =>
    if args.length ≠ 1 then
      Except.error ("Invalid arguments for " ++ mnemonic)
    else Except.ok (Encoded.jump mnemonic args)
  | _ => Except.error ("Unknown instruction: " ++ mnemonic)

/-- `encodeInstruction(parsed)`: the `try`/`catch` re-wraps every error
as `Error encoding <mnemonic>: <message>`. -/
def encodeInstruction (mnemonic : String) (args : List Arg) :
    Except String Encoded :=
  match encodeInstructionCore mnemonic args with
  | Except.ok e => Except.ok e
  | Except.error msg =>
    Except.error ("Error encoding " ++ mnemonic ++ ": " ++ msg)

/-! ### Processor state -/

/-- A stored instruction record (`loadProgram` pushes
`{...parsed, binary, address, originalLine}`; the display-only
`originalLine` is omitted). -/
structure Instr where
  label : Option String
  mnemonic : String
  args : List Arg
  binary : Nat
  address : Int
deriving DecidableEq, Repr

/-- The mutable state of `MIPSSimulator`.  `HI : Option Nat` models the
JS property `this.HI`, which the constructor never assigns (`none` is
JS `undefined`); `PC : Int` models the plain JS number, which branch
arithmetic can take outside `[0, 2^32)`. -/
structure SimState where
  registers : List Nat
  memory : Nat → Nat
  PC : Int
  HI : Option Nat
  LO : Nat
  instructions : List Instr
  labels : List (String × Nat)
  loaded : Bool
  halted : Bool
  cycle : Nat
  instructionCount : Nat

/-- The constructor: registers and memory zeroed, `PC = 0x00400000`,
`LO = 0` — and no assignment to `this.HI` at all. -/
def initState : SimState where
  registers := List.replicate 32 0
  memory := fun _ => 0
  PC := 0x00400000
  HI := none
  LO := 0
  instructions := []
  labels := []
  loaded := false
  halted := false
  cycle := 0
  instructionCount := 0

/-! ### Memory subsystem -/

/-- `readMemory(address)`: `address >>> 0`, bounds-checked against the
64 KB array, out-of-range reads return 0. -/
def readMemory (mem : Nat → Nat) (address : Nat) : Nat :=
  let addr := address % 4294967296
  if addr < 65536 then mem addr else 0

/-- `writeMemory(address, value)`: in-range writes store `value & 0xff`,
out-of-range writes are dropped. -/
def writeMemory (mem : Nat → Nat) (address : Nat) (value : Nat) :
    Nat → Nat :=
  let addr := address % 4294967296
  if addr < 65536 then fun x => if x = addr then value % 256 else mem x
  else mem

/-- `readWord(address)`: `address & ~0x3`, then four big-endian bytes.
The JS `(b0 << 24) | …` is an int32 whose `Uint32Array` store
reinterprets it as the unsigned value composed here. -/
def readWord (mem : Nat → Nat) (address : Nat) : Nat :=
  let addr := address / 4 * 4
  let b0 := readMemory mem addr
  let b1 := readMemory mem (addr + 1)
  let b2 := readMemory mem (addr + 2)
  let b3 := readMemory mem (addr + 3)
  b0 * 16777216 + b1 * 65536 + b2 * 256 + b3

/-- `writeWord(address, value)`. -/
def writeWord (mem : Nat → Nat) (address : Nat) (value : Nat) :
    Nat → Nat :=
  let addr := address / 4 * 4
  let m1 := writeMemory mem addr (value / 16777216 % 256)
  let m2 := writeMemory m1 (addr + 1) (value / 65536 % 256)
  let m3 := writeMemory m2 (addr + 2) (value / 256 % 256)
  writeMemory m3 (addr + 3) (value % 256)

/-! ### Decoder -/

structure Decoded where
  opcode : Nat
  rs : Nat
  rt : Nat
  rd : Nat
  shamt : Nat
  funct : Nat
  immediate : Nat
  address : Nat
deriving DecidableEq, Repr

/-- `decodeInstruction(instruction)`: pure bit slicing of the stored
32-bit word. -/
def decodeInstruction (instruction : Nat) : Decoded where
  opcode := instruction / 2 ^ 26 % 64
  rs := instruction / 2 ^ 21 % 32
  rt := instruction / 2 ^ 16 % 32
  rd := instruction / 2 ^ 11 % 32
  shamt := instruction / 64 % 32
  funct := instruction % 64
  immediate := instruction % 65536
  address := instruction % 67108864

/-! ### Execution engine -/

/-- Read a register (JS `this.registers[i]`, always in bounds because
`parseRegister` yields indices below 32). -/
def regGet (s : SimState) (i : Nat) : Nat := s.registers.getD i 0

/-- Write a register (`Uint32Array` store). -/
def setReg (s : SimState) (i : Nat) (v : Nat) : SimState :=
  { s with registers := s.registers.set i v }

/-- JS `args[i]` (missing entries are `undefined`, which stringifies to
`"undefined"` when fed to `parseRegister`). -/
def argN (args : List Arg) (i : Nat) : Arg :=
  args.getD i (Arg.tok "undefined")

/-- Destructure a memory operand the way `args[1].reg` / `args[1].offset`
behave: on a plain token, `args[1].reg` is `undefined` and the
`parseRegister` call throws before the offset is ever used. -/
def memOperand (a : Arg) : Except String (Int × String) :=
  match a with
  | .offsetReg off reg => Except.ok (off, reg)
  | .tok _ => parseRegister "undefined" >>= fun _ =>
      Except.error "unreachable"

/-- Variable shift count `x & 0x1f`. -/
def shiftCount5 (n : Nat) : Nat := n % 32

/-- Immediate shift count: JS `value << shamt` converts the count with
ToUint32 and masks to 5 bits (`NaN` becomes 0). -/
def shiftCountImm (imm : Option Int) : Nat := toUint32 (imm.getD 0) % 32

/-- JS `imm & 0xffff` on a parsed immediate (`NaN & 0xffff = 0`). -/
def immAnd16 (imm : Option Int) : Nat := ((imm.getD 0) % 65536).toNat

/-- The big `switch (mnemonic)` of `executeInstruction`: computes the
state after the case body (registers, memory, HI, LO, halted) together
with `nextPC`.  `this.PC` is not yet updated here, and the final
`registers[0] = 0` / bookkeeping happens in `executeInstruction`. -/
def execSwitch (s : SimState) (inst : Instr) :
    Except String (SimState × Int) :=
  let decoded := decodeInstruction inst.binary
  let args := inst.args
  match inst.mnemonic with
  | "add" => do
    let rd ← parseRegister (argStr (argN args 0))
    let r2 ← parseRegister (argStr (argN args 2))
    let r1 ← parseRegister (argStr (argN args 1))
    pure (setReg s rd ((regGet s r2 + regGet s r1) % 4294967296), s.PC + 4)
  | "sub" => do
    let rd ← parseRegister (argStr (argN args 0))
    let r2 ← parseRegister (argStr (argN args 2))
    let r1 ← parseRegister (argStr (argN args 1))
    pure (setReg s rd (toUint32 ((regGet s r2 : Int) - regGet s r1)),
          s.PC + 4)
  | "addu" => do
    let rd ← parseRegister (argStr (argN args 0))
    let r2 ← parseRegister (argStr (argN args 2))
    let r1 ← parseRegister (argStr (argN args 1))
    pure (setReg s rd ((regGet s r2 + regGet s r1) % 4294967296), s.PC + 4)
  | "subu" => do
    let rd ← parseRegister (argStr (argN args 0))
    let r2 ← parseRegister (argStr (argN args 2))
    let r1 ← parseRegister (argStr (argN args 1))
    pure (setReg s rd (toUint32 ((regGet s r2 : Int) - regGet s r1)),
          s.PC + 4)
  | "and" => do
    let rd ← parseRegister (argStr (argN args 0))
    let r2 ← parseRegister (argStr (argN args 2))
    let r1 ← parseRegister (argStr (argN args 1))
    pure (setReg s rd (Nat.land (regGet s r2) (regGet s r1)), s.PC + 4)
  | "or" => do
    let rd ← parseRegister (argStr (argN args 0))
    let r2 ← parseRegister (argStr (argN args 2))
    let r1 ← parseRegister (argStr (argN args 1))
    pure (setReg s rd (Nat.lor (regGet s r2) (regGet s r1)), s.PC + 4)
  | "xor" => do
    let rd ← parseRegister (argStr (argN args 0))
    let r2 ← parseRegister (argStr (argN args 2))
    let r1 ← parseRegister (argStr (argN args 1))
    pure (setReg s rd (Nat.xor (regGet s r2) (regGet s r1)), s.PC + 4)
  | "nor" => do
    let rd ← parseRegister (argStr (argN args 0))
    let r2 ← parseRegister (argStr (argN args 2))
    let r1 ← parseRegister (argStr (argN args 1))
    -- JS `~x` stored to a Uint32Array is the 32-bit complement
    pure (setReg s rd
           (Nat.xor (Nat.lor (regGet s r2) (regGet s r1)) 4294967295),
          s.PC + 4)
  | "sll" => do
    let rd ← parseRegister (argStr (argN args 0))
    let r1 ← parseRegister (argStr (argN args 1))
    let sh ← parseImmediateArg (argN args 2)
    pure (setReg s rd
           (toUint32 ((regGet s r1 : Int) * 2 ^ shiftCountImm sh)),
          s.PC + 4)
  | "srl" => do
    let rd ← parseRegister (argStr (argN args 0))
    let r1 ← parseRegister (argStr (argN args 1))
    let sh ← parseImmediateArg (argN args 2)
    pure (setReg s rd (regGet s r1 / 2 ^ shiftCountImm sh), s.PC + 4)
  | "sra" => do
    let rd ← parseRegister (argStr (argN args 0))
    let r1 ← parseRegister (argStr (argN args 1))
    let sh ← parseImmediateArg (argN args 2)
    pure (setReg s rd
           (toUint32 (Int.fdiv (toInt32 (regGet s r1))
                        (2 ^ shiftCountImm sh))),
          s.PC + 4)
  | "sllv" => do
    let rd ← parseRegister (argStr (argN args 0))
    let r1 ← parseRegister (argStr (argN args 1))
    let r2 ← parseRegister (argStr (argN args 2))
    pure (setReg s rd
           (toUint32 ((regGet s r1 : Int) * 2 ^ shiftCount5 (regGet s r2))),
          s.PC + 4)
  | "srlv" => do
    let rd ← parseRegister (argStr (argN args 0))
    let r1 ← parseRegister (argStr (argN args 1))
    let r2 ← parseRegister (argStr (argN args 2))
    pure (setReg s rd (regGet s r1 / 2 ^ shiftCount5 (regGet s r2)),
          s.PC + 4)
  | "srav" => do
    let rd ← parseRegister (argStr (argN args 0))
    let r1 ← parseRegister (argStr (argN args 1))
    let r2 ← parseRegister (argStr (argN args 2))
    pure (setReg s rd
           (toUint32 (Int.fdiv (toInt32 (regGet s r1))
                        (2 ^ shiftCount5 (regGet s r2)))),
          s.PC + 4)
  | "slt" => do
    let rd ← parseRegister (argStr (argN args 0))
    let r2 ← parseRegister (argStr (argN args 2))
    let r1 ← parseRegister (argStr (argN args 1))
    pure (setReg s rd
           (if toInt32 (regGet s r2) < toInt32 (regGet s r1) then 1 else 0),
          s.PC + 4)
  | "sltu" => do
    let rd ← parseRegister (argStr (argN args 0))
    let r2 ← parseRegister (argStr (argN args 2))
    let r1 ← parseRegister (argStr (argN args 1))
    pure (setReg s rd (if regGet s r2 < regGet s r1 then 1 else 0),
          s.PC + 4)
  | "mult" => do
    let r0 ← parseRegister (argStr (argN args 0))
    let r1 ← parseRegister (argStr (argN args 1))
    let result := toInt32 (regGet s r0) * toInt32 (regGet s r1)
    pure ({ s with HI := some (toUint32 (Int.fdiv result 4294967296)),
                   LO := toUint32 result }, s.PC + 4)
  | "multu" => do
    let r0 ← parseRegister (argStr (argN args 0))
    let r1 ← parseRegister (argStr (argN args 1))
    let result := regGet s r0 * regGet s r1
    pure ({ s with HI := some (result / 4294967296),
                   LO := result % 4294967296 }, s.PC + 4)
  | "div" => do
    let r0 ← parseRegister (argStr (argN args 0))
    let r1 ← parseRegister (argStr (argN args 1))
    let rsVal := toInt32 (regGet s r0)
    let rtVal := toInt32 (regGet s r1)
    -- JS guards the update with `rtVal !== 0` (no-op on zero).
    -- JS: LO = Math.floor(rsVal / rtVal) >>> 0  (floor of the real
    -- quotient); HI = (rsVal % rtVal) >>> 0 (truncated remainder)
    pure ((if rtVal = 0 then s
           else { s with LO := toUint32 (Int.fdiv rsVal rtVal),
                         HI := some (toUint32 (Int.tmod rsVal rtVal)) }),
          s.PC + 4)
  | "divu" => do
    let r0 ← parseRegister (argStr (argN args 0))
    let r1 ← parseRegister (argStr (argN args 1))
    let rsVal := regGet s r0
    let rtVal := regGet s r1
    -- JS guards the update with `rtVal !== 0` (no-op on zero)
    pure ((if rtVal = 0 then s
           else { s with LO := rsVal / rtVal, HI := some (rsVal % rtVal) }),
          s.PC + 4)
  | "mfhi" => do
    let rd ← parseRegister (argStr (argN args 0))
    -- an undefined `this.HI` stored into the Uint32Array becomes 0
    pure (setReg s rd (s.HI.getD 0), s.PC + 4)
  | "mflo" => do
    let rd ← parseRegister (argStr (argN args 0))
    pure (setReg s rd s.LO, s.PC + 4)
  | "addi" => do
    let rd ← parseRegister (argStr (argN args 0))
    let r1 ← parseRegister (argStr (argN args 1))
    let imm ← parseImmediateArg (argN args 2)
    pure (setReg s rd
           (toUint32 (toInt32 (regGet s r1) + signExtend16 (imm.getD 0))),
          s.PC + 4)
  | "addiu" => do
    let rd ← parseRegister (argStr (argN args 0))
    let r1 ← parseRegister (argStr (argN args 1))
    let imm ← parseImmediateArg (argN args 2)
    pure (setReg s rd
           (toUint32 ((regGet s r1 : Int) + signExtend16 (imm.getD 0))),
          s.PC + 4)
  | "andi" => do
    let rd ← parseRegister (argStr (argN args 0))
    let r1 ← parseRegister (argStr (argN args 1))
    let imm ← parseImmediateArg (argN args 2)
    pure (setReg s rd (Nat.land (regGet s r1) (immAnd16 imm)), s.PC + 4)
  | "ori" => do
    let rd ← parseRegister (argStr (argN args 0))
    let r1 ← parseRegister (argStr (argN args 1))
    let imm ← parseImmediateArg (argN args 2)
    pure (setReg s rd (Nat.lor (regGet s r1) (immAnd16 imm)), s.PC + 4)
  | "xori" => do
    let rd ← parseRegister (argStr (argN args 0))
    let r1 ← parseRegister (argStr (argN args 1))
    let imm ← parseImmediateArg (argN args 2)
    pure (setReg s rd (Nat.xor (regGet s r1) (immAnd16 imm)), s.PC + 4)
  | "slti" => do
    let rd ← parseRegister (argStr (argN args 0))
    let r1 ← parseRegister (argStr (argN args 1))
    let imm ← parseImmediateArg (argN args 2)
    pure (setReg s rd
           (if toInt32 (regGet s r1) < signExtend16 (imm.getD 0)
            then 1 else 0), s.PC + 4)
  | "sltiu" => do
    let rd ← parseRegister (argStr (argN args 0))
    let r1 ← parseRegister (argStr (argN args 1))
    let imm ← parseImmediateArg (argN args 2)
    pure (setReg s rd (if regGet s r1 < immAnd16 imm then 1 else 0),
          s.PC + 4)
  | "lui" => do
    let rd ← parseRegister (argStr (argN args 0))
    let imm ← parseImmediateArg (argN args 1)
    pure (setReg s rd (toUint32 ((imm.getD 0) * 65536)), s.PC + 4)
  | "lw" => do
    let (off, reg) ← memOperand (argN args 1)
    let base ← parseRegister reg
    let rd ← parseRegister (argStr (argN args 0))
    let addr := toUint32 ((regGet s base : Int) + off)
    pure (setReg s rd (readWord s.memory addr), s.PC + 4)
  | "sw" => do
    let (off, reg) ← memOperand (argN args 1)
    let base ← parseRegister reg
    let rt ← parseRegister (argStr (argN args 0))
    let addr := toUint32 ((regGet s base : Int) + off)
    pure ({ s with memory := writeWord s.memory addr (regGet s rt) },
          s.PC + 4)
  | "lb" => do
    let (off, reg) ← memOperand (argN args 1)
    let base ← parseRegister reg
    let rd ← parseRegister (argStr (argN args 0))
    let addr := toUint32 ((regGet s base : Int) + off)
    let byteVal := readMemory s.memory addr
    -- the source feeds the byte through the 16-bit sign extender
    pure (setReg s rd (toUint32 (signExtend16 byteVal)), s.PC + 4)
  | "sb" => do
    let (off, reg) ← memOperand (argN args 1)
    let base ← parseRegister reg
    let rt ← parseRegister (argStr (argN args 0))
    let addr := toUint32 ((regGet s base : Int) + off)
    pure ({ s with memory := writeMemory s.memory addr (regGet s rt % 256) },
          s.PC + 4)
  | "lh" => do
    let (off, reg) ← memOperand (argN args 1)
    let base ← parseRegister reg
    let rd ← parseRegister (argStr (argN args 0))
    let addr := toUint32 ((regGet s base : Int) + off)
    let b0 := readMemory s.memory addr
    let b1 := readMemory s.memory (addr + 1)
    let halfword := b0 * 256 + b1
    pure (setReg s rd (toUint32 (signExtend16 halfword)), s.PC + 4)
  | "sh" => do
    let (off, reg) ← memOperand (argN args 1)
    let base ← parseRegister reg
    let rt ← parseRegister (argStr (argN args 0))
    let addr := toUint32 ((regGet s base : Int) + off)
    let value := regGet s rt
    let m1 := writeMemory s.memory addr (value / 256 % 256)
    pure ({ s with memory := writeMemory m1 (addr + 1) (value % 256) },
          s.PC + 4)
  | "beq" => do
    let r0 ← parseRegister (argStr (argN args 0))
    let r1 ← parseRegister (argStr (argN args 1))
    let offset := signExtend16 decoded.immediate
    -- branch taken when rsVal === rtVal
    pure (s, if regGet s r0 = regGet s r1 then s.PC + 4 + offset * 4
             else s.PC + 4)
  | "bne" => do
    let r0 ← parseRegister (argStr (argN args 0))
    let r1 ← parseRegister (argStr (argN args 1))
    let offset := signExtend16 decoded.immediate
    -- branch taken when rsVal !== rtVal (fall-through on equality)
    pure (s, if regGet s r0 = regGet s r1 then s.PC + 4
             else s.PC + 4 + offset * 4)
  | "bgtz" => do
    let r0 ← parseRegister (argStr (argN args 0))
    let offset := signExtend16 decoded.immediate
    pure (s, if toInt32 (regGet s r0) > 0 then s.PC + 4 + offset * 4
             else s.PC + 4)
  | "blez" => do
    let r0 ← parseRegister (argStr (argN args 0))
    let offset := signExtend16 decoded.immediate
    pure (s, if toInt32 (regGet s r0) ≤ 0 then s.PC + 4 + offset * 4
             else s.PC + 4)
  | "j" =>
    pure (s, toInt32 (Nat.lor (Nat.land (toUint32 (s.PC + 4)) 0xf0000000)
                        (decoded.address * 4)))
  | "jal" =>
    pure (setReg s 31 (toUint32 (s.PC + 4)),
          toInt32 (Nat.lor (Nat.land (toUint32 (s.PC + 4)) 0xf0000000)
                     (decoded.address * 4)))
  | "jr" => do
    let r0 ← parseRegister (argStr (argN args 0))
    pure (s, (regGet s r0 : Int))
  | "syscall" =>
    -- halts when $v0 === 10, otherwise a no-op
    pure ((if regGet s 2 = 10 then { s with halted := true } else s),
          s.PC + 4)
  | "nop" => pure (s, s.PC + 4)
  | _ => Except.error ("Unimplemented instruction: " ++ inst.mnemonic)

/-- `executeInstruction(instruction)`: run the switch, then force
`registers[0] = 0`, commit the PC and bump the counters. -/
def executeInstruction (s : SimState) (inst : Instr) :
    Except String SimState :=
  match execSwitch s inst with
  | Except.error e => Except.error e
  | Except.ok (t, nextPC) =>
    Except.ok { t with registers := t.registers.set 0 0,
                       PC := nextPC,
                       cycle := t.cycle + 1,
                       instructionCount := t.instructionCount + 1 }

/-! ### `step`, `run`, `reset` -/

/-- Whether a `step`/`run` call succeeded (`result.success`), with the
`message` of a failing result. -/
inductive StepOutcome where
  | ok
  | fail : String → StepOutcome
deriving DecidableEq, Repr

/-- Dummy record for the (unreachable) out-of-bounds list access. -/
def noInstr : Instr := ⟨none, "", [], 0, 0⟩

/-- `step()`: refuse when not loaded or halted; fetch at
`(PC − 0x00400000) >>> 2`; halt on an out-of-range index; otherwise
execute one instruction. -/
def step (s : SimState) : Except String (SimState × StepOutcome) :=
  if s.loaded = false ∨ s.halted = true then
    Except.ok (s, StepOutcome.fail "Program not loaded or halted")
  else
    -- instructionIndex = (PC - 0x00400000) >>> 2
    if s.instructions.length ≤ toUint32 (s.PC - 0x00400000) / 4 then
      Except.ok ({ s with halted := true },
                 StepOutcome.fail "PC out of bounds")
    else
      match executeInstruction s
          (s.instructions.getD (toUint32 (s.PC - 0x00400000) / 4) noInstr) with
      | Except.error e => Except.error e
      | Except.ok s' => Except.ok (s', StepOutcome.ok)

/-- Result of `run()`: `{success: true, steps}` or
`{success: false, message}`. -/
inductive RunResult where
  | ok : Nat → RunResult
  | fail : String → RunResult
deriving DecidableEq, Repr

/-- The `while (!this.halted && steps < maxSteps)` loop of `run`,
followed by the `if (steps >= maxSteps)` check.  The structural `fuel`
only bounds recursion; with `run`'s initial fuel of 10000 it can reach 0
only when `steps = 10000`, where the loop condition is false anyway and
the same post-loop check is taken. -/
def runLoop : Nat → SimState → Nat → Except String (SimState × RunResult)
  | 0, s, steps =>
    if 10000 ≤ steps then
      Except.ok (s, RunResult.fail "Maximum step limit reached")
    else Except.ok (s, RunResult.ok steps)
  | fuel + 1, s, steps =>
    if s.halted = false ∧ steps < 10000 then
      match step s with
      | Except.error e => Except.error e
      | Except.ok (s', StepOutcome.fail msg) =>
        Except.ok (s', RunResult.fail msg)
      | Except.ok (s', StepOutcome.ok) => runLoop fuel s' (steps + 1)
    else
      if 10000 ≤ steps then
        Except.ok (s, RunResult.fail "Maximum step limit reached")
      else Except.ok (s, RunResult.ok steps)

/-- `run()`. -/
def run (s : SimState) : Except String (SimState × RunResult) :=
  if s.loaded = false ∨ s.halted = true then
    Except.ok (s, RunResult.fail "Program not loaded or halted")
  else runLoop 10000 s 0

/-- `reset()`: zero the data state, restore `PC`, and clear the program
only when nothing is loaded. -/
def reset (s : SimState) : SimState :=
  { s with registers := s.registers.map fun _ => 0
           memory := fun _ => 0
           PC := 0x00400000
           HI := some 0
           LO := 0
           halted := false
           cycle := 0
           instructionCount := 0
           instructions := if s.loaded then s.instructions else []
           labels := if s.loaded then s.labels else [] }

/-! ### `loadProgram` -/

/-- First pass over the parsed lines: collect labels (later definitions
overwrite earlier ones, as JS object assignment does) and the program's
instructions, threading `instructionIndex`. -/
def passOne (lines : List String) (idx : Nat)
    (prog : List (Option String × String × List Arg))
    (labels : List (String × Nat)) :
    List (Option String × String × List Arg) × List (String × Nat) :=
  match lines with
  | [] => (prog.reverse, labels)
  | line :: rest =>
    match parseLine line with
    | none => passOne rest idx prog labels
    | some (ParsedLine.labelOnly lab) =>
      passOne rest idx prog ((lab, idx) :: labels)
    | some (ParsedLine.instr lbl mn args) =>
      let labels' := match lbl with
        | some lab => (lab, idx) :: labels
        | none => labels
      passOne rest (idx + 1) ((lbl, mn, args) :: prog) labels'

/-- JS string interpolation of the operand in the
`Undefined label: ${label}` message. -/
def labelDisplay (a : Option Arg) : String :=
  match a with
  | none => "undefined"
  | some (.tok s) => s
  | some (.offsetReg _ _) => "[object Object]"

/-- Second pass: encode each instruction and resolve branch/jump labels.
On a thrown error it returns the instructions pushed so far — JS has
already replaced `this.instructions` with exactly that partial list when
the exception propagates. -/
def passTwo (pc : Int) (labels : List (String × Nat))
    (prog : List (Option String × String × List Arg)) (i : Nat)
    (acc : List Instr) : Except (String × List Instr) (List Instr) :=
  match prog with
  | [] => Except.ok acc.reverse
  | (lbl, mn, args) :: rest =>
    match encodeInstruction mn args with
    | Except.error e => Except.error (e, acc.reverse)
    | Except.ok (Encoded.word w) =>
      passTwo pc labels rest (i + 1)
        (⟨lbl, mn, args, w, pc + i * 4⟩ :: acc)
    | Except.ok (Encoded.branch bm bargs) =>
      match bargs.getLast? with
      | some (Arg.tok lab) =>
        match labels.lookup lab with
        | some target =>
          -- offset = labels[label] - i - 1, encoded with rt/rs as in JS
          -- (beq/bne take two registers, bgtz/blez repeat args[0])
          match (if bm = "beq" ∨ bm = "bne" then
                   encodeIType bm (argStr (argN bargs 0))
                     (argStr (argN bargs 1))
                     (ImmOperand.num ((target : Int) - i - 1))
                 else
                   encodeIType bm (argStr (argN bargs 0))
                     (argStr (argN bargs 0))
                     (ImmOperand.num ((target : Int) - i - 1))) with
          | Except.error e => Except.error (e, acc.reverse)
          | Except.ok w =>
            passTwo pc labels rest (i + 1)
              (⟨lbl, mn, args, w, pc + i * 4⟩ :: acc)
        | none =>
          Except.error ("Undefined label: " ++ lab, acc.reverse)
      | other =>
        Except.error ("Undefined label: " ++ labelDisplay other, acc.reverse)
    | Except.ok (Encoded.jump jm jargs) =>
      match jargs.headD (Arg.tok "undefined") with
      | Arg.tok lab =>
        match labels.lookup lab with
        | some target =>
          -- addr = 0x00400000 + labels[label] * 4
          match encodeJType jm (0x00400000 + (target : Int) * 4) with
          | Except.error e => Except.error (e, acc.reverse)
          | Except.ok w =>
            passTwo pc labels rest (i + 1)
              (⟨lbl, mn, args, w, pc + i * 4⟩ :: acc)
        | none =>
          Except.error ("Undefined label: " ++ lab, acc.reverse)
      | Arg.offsetReg _ _ =>
        Except.error ("Undefined label: [object Object]", acc.reverse)

/-- `loadProgram(assemblyText)`.  Returns the mutated simulator together
with `none` on success or `some message` when the JS method throws.
`this.instructions` is reassigned *before* the encoding loop, so a
failing load leaves the partially rebuilt stream behind while every
other field keeps its prior value. -/
def loadProgram (s : SimState) (assemblyText : String) :
    SimState × Option String :=
  let lines := (splitOnChar '\n' assemblyText.data).map String.mk
  let (program, labels) := passOne lines 0 [] []
  match passTwo s.PC labels program 0 [] with
  | Except.error (e, partialInstrs) =>
    ({ s with instructions := partialInstrs }, some e)
  | Except.ok instrs =>
    ({ s with instructions := instrs
              labels := labels
              loaded := true
              halted := false
              cycle := 0
              instructionCount := 0 }, none)

/-! ### Iterated successful steps

`goodSteps s m` is the state after `m` committed instructions starting
from `s`, or `none` if some step refuses (halted, failure result, or a
thrown error) before `m` commits.  The pre-step `halted` check mirrors
the `while (!this.halted …)` guard of `run`. -/
def goodSteps (s : SimState) : Nat → Option SimState
  | 0 => some s
  | m + 1 =>
    if s.halted = true then none
    else
      match step s with
      | Except.ok (s', StepOutcome.ok) => goodSteps s' m
      | _ => none

/-! ### Concrete programs used by the claim analyses -/

/-- Program whose `sub`/`subu` results expose the operand order actually
implemented. -/
def subProgState : SimState :=
  (loadProgram initState ("addi $t0, $zero, 5\naddi $t1, $zero, 3\n" ++
    "sub $t2, $t0, $t1\nsubu $t3, $t0, $t1\naddi $v0, $zero, 10\nsyscall")).1

/-- Program storing byte 0x80 and loading it back with `lb`. -/
def lbProgState : SimState :=
  (loadProgram initState ("addi $t1, $zero, 128\nsb $t1, 0($zero)\n" ++
    "lb $t2, 0($zero)\naddi $v0, $zero, 10\nsyscall")).1

/-- Program dividing −7 by 2 and reading HI/LO back. -/
def divProgState : SimState :=
  (loadProgram initState ("addi $t0, $zero, -7\naddi $t1, $zero, 2\n" ++
    "div $t0, $t1\nmflo $t2\nmfhi $t3\naddi $v0, $zero, 10\nsyscall")).1

/-- Program doing an unaligned (`addr = 1`) halfword store and load. -/
def halfProgState : SimState :=
  (loadProgram initState ("addi $t1, $zero, 0x2233\nsh $t1, 1($zero)\n" ++
    "lh $t2, 1($zero)\naddi $v0, $zero, 10\nsyscall")).1

/-- A simulator with one successfully loaded `nop`. -/
def nopLoaded : SimState := (loadProgram initState "nop").1

/-- `nopLoaded` after stepping its single `nop`. -/
def nopStepped : SimState :=
  { registers := (List.replicate 32 0).set 0 0
    memory := fun _ => 0
    PC := 0x00400004
    HI := none
    LO := 0
    instructions := nopLoaded.instructions
    labels := nopLoaded.labels
    loaded := true
    halted := false
    cycle := 1
    instructionCount := 1 }

/-- Two-instruction program that halts after exactly 2 steps. -/
def tinyHaltState : SimState :=
  (loadProgram initState "addi $v0, $zero, 10\nsyscall").1

/-- `tinyHaltState` after its two committed instructions. -/
def tinyHaltEnd : SimState :=
  { registers := [0, 0, 10, 0, 0, 0, 0, 0, 0, 0, 0, 0, 0, 0, 0, 0,
                  0, 0, 0, 0, 0, 0, 0, 0, 0, 0, 0, 0, 0, 0, 0, 0]
    memory := fun _ => 0
    PC := 0x00400008
    HI := none
    LO := 0
    instructions := tinyHaltState.instructions
    labels := tinyHaltState.labels
    loaded := true
    halted := true
    cycle := 2
    instructionCount := 2 }

/-! ### The step-cap boundary program

A count-down loop tuned so that the halting `syscall` commits as exactly
the 10000th instruction of a single `run` invocation:
1 + 2·4998 + 1 + 1 + 1 = 10000 steps. -/

def boundaryText : String :=
  "addi $t0, $zero, 4998\nloop: addi $t0, $t0, -1\n" ++
  "bne $t0, $zero, loop\nnop\naddi $v0, $zero, 10\nsyscall"

def boundaryState : SimState := (loadProgram initState boundaryText).1

/-- Register file of the boundary program while looping: `$t0 = v`,
everything else 0. -/
def loopRegs (v : Nat) : List Nat :=
  [0, 0, 0, 0, 0, 0, 0, 0, v, 0, 0, 0, 0, 0, 0, 0,
   0, 0, 0, 0, 0, 0, 0, 0, 0, 0, 0, 0, 0, 0, 0, 0]

/-- Boundary program about to execute the loop body
(`addi $t0, $t0, -1` at 0x00400004) with `$t0 = v` after `c` commits. -/
def stateLoop (v c : Nat) : SimState :=
  { registers := loopRegs v
    memory := fun _ => 0
    PC := 0x00400004
    HI := none
    LO := 0
    instructions := boundaryState.instructions
    labels := boundaryState.labels
    loaded := true
    halted := false
    cycle := c
    instructionCount := c }

/-- Boundary program about to execute the `bne` at 0x00400008. -/
def stateMid (v c : Nat) : SimState :=
  { registers := loopRegs v
    memory := fun _ => 0
    PC := 0x00400008
    HI := none
    LO := 0
    instructions := boundaryState.instructions
    labels := boundaryState.labels
    loaded := true
    halted := false
    cycle := c
    instructionCount := c }

/-- The boundary program's state after its 10000th committed
instruction: halted by `syscall` with `$v0 = 10`. -/
def boundaryEnd : SimState :=
  { registers := [0, 0, 10, 0, 0, 0, 0, 0, 0, 0, 0, 0, 0, 0, 0, 0,
                  0, 0, 0, 0, 0, 0, 0, 0, 0, 0, 0, 0, 0, 0, 0, 0]
    memory := fun _ => 0
    PC := 0x00400018
    HI := none
    LO := 0
    instructions := boundaryState.instructions
    labels := boundaryState.labels
    loaded := true
    halted := true
    cycle := 10000
    instructionCount := 10000 }

/-- Fresh simulator whose PC was moved (as two `step`s of a loaded
program would) before `loadProgram` is called again. -/
def movedPCState : SimState := { initState with PC := 0x00400008 }

/-- Two `nop`s loaded on a fresh simulator. -/
def twoNopState : SimState := (loadProgram initState "nop\nnop").1

/-! ## Helper lemmas -/

theorem toInt32_small (n : Nat) (h : n < 2147483648) : toInt32 n = n := by
  unfold toInt32
  rw [Nat.mod_eq_of_lt (by omega)]
  simp [h]

theorem toUint32_ofNat (n : Nat) (h : n < 4294967296) :
    toUint32 (n : Int) = n := by
  unfold toUint32
  rw [Int.emod_eq_of_lt (by omega) (by omega)]
  simp

theorem pure_ok {α : Type} (x : α) :
    (pure x : Except String α) = Except.ok x := rfl

theorem bind_ok2 {α β : Type} (x : α) (f : α → Except String β) :
    (Except.ok x : Except String α) >>= f = f x := rfl

theorem bindE {α β : Type} (x : Except String α) (f : α → Except String β)
    (y : β) (h : x >>= f = Except.ok y) :
    ∃ a, x = Except.ok a ∧ f a = Except.ok y := by
  cases x with
  | error e => exact absurd h (by simp [Bind.bind, Except.bind])
  | ok a => exact ⟨a, rfl, h⟩

theorem argN_zero (a : Arg) (l : List Arg) : argN (a :: l) 0 = a := rfl

theorem argN_one (a b : Arg) (l : List Arg) : argN (a :: b :: l) 1 = b := rfl

theorem argStr_tok (s : String) : argStr (Arg.tok s) = s := rfl

theorem memOperand_offsetReg (off : Int) (reg : String) :
    memOperand (Arg.offsetReg off reg) = Except.ok (off, reg) := rfl

/-! ### Register-file shape lemmas

Every case of the execution switch either leaves `registers` alone or
writes one entry with `List.set`, so its length is preserved. -/

theorem execSwitch_regs_len (s : SimState) (inst : Instr) (t : SimState)
    (pc : Int) (h : execSwitch s inst = Except.ok (t, pc)) :
    t.registers.length = s.registers.length := by
  unfold execSwitch at h
  split at h
  all_goals try (repeat obtain ⟨_, _, h⟩ := bindE _ _ _ h)
  all_goals simp only [pure, Except.pure, Except.ok.injEq, Prod.mk.injEq] at h
  all_goals obtain ⟨h1, -⟩ := h
  all_goals rw [← h1]
  all_goals try split
  all_goals simp [setReg]

theorem executeInstruction_shape (s : SimState) (inst : Instr)
    (s' : SimState) (h : executeInstruction s inst = Except.ok s') :
    ∃ t pc, execSwitch s inst = Except.ok (t, pc) ∧
      s'.registers = t.registers.set 0 0 := by
  unfold executeInstruction at h
  cases hx : execSwitch s inst with
  | error e => rw [hx] at h; exact absurd h (by simp)
  | ok r =>
    obtain ⟨t, pc⟩ := r
    rw [hx] at h
    simp only [Except.ok.injEq] at h
    exact ⟨t, pc, rfl, by rw [← h]⟩

theorem headD_set_zero (l : List Nat) (h : l ≠ []) :
    (l.set 0 0).headD 1 = 0 := by
  cases l with
  | nil => exact absurd rfl h
  | cons a l => rfl

/-! ### `runLoop` characterization against `goodSteps` -/

theorem goodSteps_succ (s s' : SimState) (m : Nat) (h : s.halted = false)
    (hs : step s = Except.ok (s', StepOutcome.ok)) :
    goodSteps s (m + 1) = goodSteps s' m := by
  simp [goodSteps, h, hs]

theorem runLoop_limit : ∀ (m : Nat) (s : SimState) (steps : Nat)
    (t : SimState), goodSteps s m = some t → steps + m = 10000 →
    runLoop m s steps =
      Except.ok (t, RunResult.fail "Maximum step limit reached") := by
  intro m
  induction m with
  | zero =>
    intro s steps t hg hsum
    simp only [goodSteps, Option.some.injEq] at hg
    subst hg
    simp only [runLoop]
    rw [if_pos (by omega)]
  | succ m ih =>
    intro s steps t hg hsum
    rw [goodSteps] at hg
    by_cases hh : s.halted = true
    · simp [hh] at hg
    · rw [if_neg hh] at hg
      cases hstep : step s with
      | error e => rw [hstep] at hg; simp at hg
      | ok pr =>
        obtain ⟨s', o⟩ := pr
        rw [hstep] at hg
        cases o with
        | fail msg => simp at hg
        | ok =>
          simp only at hg
          rw [runLoop]
          rw [if_pos ⟨by simpa using hh, by omega⟩]
          rw [hstep]
          exact ih s' (steps + 1) t hg (by omega)

theorem runLoop_halts : ∀ (m : Nat) (s : SimState) (steps : Nat)
    (t : SimState), goodSteps s m = some t → t.halted = true →
    steps + m ≤ 9999 → ∀ fuel, steps + fuel = 10000 →
    runLoop fuel s steps = Except.ok (t, RunResult.ok (steps + m)) := by
  intro m
  induction m with
  | zero =>
    intro s steps t hg ht hle fuel hfuel
    simp only [goodSteps, Option.some.injEq] at hg
    subst hg
    cases fuel with
    | zero => omega
    | succ f =>
      rw [runLoop]
      rw [if_neg (by simp [ht])]
      rw [if_neg (by omega)]
      norm_num
  | succ m ih =>
    intro s steps t hg ht hle fuel hfuel
    rw [goodSteps] at hg
    by_cases hh : s.halted = true
    · simp [hh] at hg
    · rw [if_neg hh] at hg
      cases hstep : step s with
      | error e => rw [hstep] at hg; simp at hg
      | ok pr =>
        obtain ⟨s', o⟩ := pr
        rw [hstep] at hg
        cases o with
        | fail msg => simp at hg
        | ok =>
          simp only at hg
          cases fuel with
          | zero => omega
          | succ f =>
            rw [runLoop]
            rw [if_pos ⟨by simpa using hh, by omega⟩]
            rw [hstep]
            rw [show steps + (m + 1) = (steps + 1) + m by omega]
            exact ih s' (steps + 1) t hg ht (by omega) f (by omega)

/-! ### Stepping the boundary program symbolically -/

theorem boundary_len : boundaryState.instructions.length = 6 := rfl

theorem boundary_instr1 : (boundaryState.instructions[1]?).getD noInstr =
    ⟨some "loop", "addi", [.tok "$t0", .tok "$t0", .tok "-1"],
     554237951, 4194308⟩ := rfl

theorem boundary_instr2 : (boundaryState.instructions[2]?).getD noInstr =
    ⟨none, "bne", [.tok "$t0", .tok "$zero", .tok "loop"],
     336134142, 4194312⟩ := rfl

theorem pr_t0 : parseRegister "$t0" = Except.ok 8 := rfl

theorem pr_zero : parseRegister "$zero" = Except.ok 0 := rfl

theorem pia_minus_one :
    parseImmediateArg (Arg.tok "-1") = Except.ok (some (-1)) := rfl

theorem loopRegs_set8 (v w : Nat) : (loopRegs v).set 8 w = loopRegs w := rfl

theorem loopRegs_set0 (v : Nat) : (loopRegs v).set 0 0 = loopRegs v := rfl

theorem loopRegs_getD8 (v : Nat) : (loopRegs v).getD 8 0 = v := rfl

theorem loopRegs_getD0 (v : Nat) : (loopRegs v).getD 0 0 = 0 := rfl

/-- One committed `addi $t0, $t0, -1` of the boundary loop. -/
theorem step_loop_addi (v c : Nat) (h1 : 1 ≤ v) (h2 : v ≤ 4998) :
    step (stateLoop v c) = Except.ok (stateMid (v - 1) (c + 1), .ok) := by
  have hv32 : toInt32 v = (v : Int) := toInt32_small v (by omega)
  have hval : toUint32 ((v : Int) + -1) = v - 1 := by
    rw [show ((v : Int) + -1) = ((v - 1 : Nat) : Int) by omega]
    exact toUint32_ofNat _ (by omega)
  unfold step
  simp only [stateLoop, boundary_len]
  norm_num [toUint32]
  rw [show Int.toNat 4 / 4 = 1 from rfl]
  rw [if_neg (by decide : ¬ (6 ≤ 1))]
  rw [boundary_instr1]
  unfold executeInstruction execSwitch
  simp only [show argN [Arg.tok "$t0", Arg.tok "$t0", Arg.tok "-1"] 0 =
      Arg.tok "$t0" from rfl,
    show argN [Arg.tok "$t0", Arg.tok "$t0", Arg.tok "-1"] 1 =
      Arg.tok "$t0" from rfl,
    show argN [Arg.tok "$t0", Arg.tok "$t0", Arg.tok "-1"] 2 =
      Arg.tok "-1" from rfl,
    argStr_tok, pr_t0, pia_minus_one, bind_ok2, pure_ok,
    show signExtend16 ((some (-1) : Option Int).getD 0) = -1 from rfl,
    regGet, setReg, loopRegs_getD8, hv32, hval, loopRegs_set8,
    loopRegs_set0]
  rfl

/-- One committed taken `bne $t0, $zero, loop` of the boundary loop
(`$t0 = w ≠ 0`). -/
theorem step_loop_bne (w c : Nat) (h1 : 1 ≤ w) :
    step (stateMid w c) = Except.ok (stateLoop w (c + 1), .ok) := by
  unfold step
  simp only [stateMid, boundary_len]
  norm_num [toUint32]
  rw [show Int.toNat 8 / 4 = 2 from rfl]
  rw [if_neg (by decide : ¬ (6 ≤ 2))]
  rw [boundary_instr2]
  unfold executeInstruction execSwitch
  simp only [show argN [Arg.tok "$t0", Arg.tok "$zero", Arg.tok "loop"] 0 =
      Arg.tok "$t0" from rfl,
    show argN [Arg.tok "$t0", Arg.tok "$zero", Arg.tok "loop"] 1 =
      Arg.tok "$zero" from rfl,
    argStr_tok, pr_t0, pr_zero, bind_ok2, pure_ok,
    show (decodeInstruction 336134142).immediate = 65534 from rfl,
    show signExtend16 (65534 : Nat) = -2 from rfl,
    regGet, loopRegs_getD8, loopRegs_getD0]
  rw [if_neg (by omega : ¬ (w = 0))]
  simp only [setReg, loopRegs_set0]
  rfl

/-- Collapsing the 2·k middle steps of the boundary loop. -/
theorem boundary_inv : ∀ (k : Nat), k ≤ 4997 → ∀ (c : Nat),
    goodSteps (stateLoop (k + 1) c) (2 * k + 5) =
      goodSteps (stateLoop 1 (c + 2 * k)) 5 := by
  intro k
  induction k with
  | zero => intro _ c; norm_num
  | succ k ih =>
    intro hk c
    rw [show 2 * (k + 1) + 5 = (2 * k + 5) + 1 + 1 by omega]
    rw [goodSteps_succ _ _ _ rfl
      (step_loop_addi (k + 2) c (by omega) (by omega))]
    rw [show k + 2 - 1 = k + 1 by omega]
    rw [goodSteps_succ _ _ _ rfl (step_loop_bne (k + 1) (c + 1) (by omega))]
    rw [ih (by omega) (c + 2)]
    rw [show c + 2 + 2 * k = c + 2 * (k + 1) by omega]

theorem boundary_first_step :
    step boundaryState = Except.ok (stateLoop 4998 1, StepOutcome.ok) := rfl

theorem boundary_not_halted : boundaryState.halted = false := rfl

theorem boundary_tail :
    goodSteps (stateLoop 1 9995) 5 = some boundaryEnd := rfl

/-- The boundary program commits exactly 10000 instructions, the last
being the halting `syscall`. -/
theorem boundary_good : goodSteps boundaryState 10000 = some boundaryEnd := by
  rw [show (10000 : Nat) = 9999 + 1 from rfl]
  rw [goodSteps_succ _ _ _ boundary_not_halted boundary_first_step]
  rw [show (9999 : Nat) = 2 * 4997 + 5 from rfl]
  rw [boundary_inv 4997 (by omega) 1]
  rw [show 1 + 2 * 4997 = 9995 from rfl]
  exact boundary_tail

/-! ### Addresses produced by the second pass of `loadProgram` -/

theorem passTwo_addresses :
    ∀ (prog : List (Option String × String × List Arg)) (pc : Int)
      (labels : List (String × Nat)) (i : Nat) (acc : List Instr)
      (out : List Instr), passTwo pc labels prog i acc = Except.ok out →
    ∃ rest, out = acc.reverse ++ rest ∧
      ∀ j, j < rest.length →
        (rest.getD j noInstr).address = pc + ((i + j : Nat) : Int) * 4 := by
  intro prog
  induction prog with
  | nil =>
    intro pc labels i acc out h
    simp only [passTwo, Except.ok.injEq] at h
    exact ⟨[], by simp [← h], by intro j hj; simp at hj⟩
  | cons hd tl ih =>
    intro pc labels i acc out h
    obtain ⟨lbl, mn, args⟩ := hd
    rw [passTwo] at h
    split at h
    all_goals try split at h
    all_goals try split at h
    all_goals try split at h
    all_goals try (exfalso; exact Except.noConfusion h)
    all_goals (
      rename_i w heq2
      obtain ⟨rest', hout, haddr⟩ := ih _ _ _ _ _ h
      subst hout
      refine ⟨(⟨lbl, mn, args, w, pc + (i : Int) * 4⟩ : Instr) :: rest',
        by simp, ?_⟩
      intro j hj
      cases j with
      | zero => simp [List.getD]
      | succ j =>
        have hja := haddr j (by simpa using hj)
        simp only [List.getD_cons_succ]
        rw [hja]
        push_cast
        ring)

/-! ## Claim analyses -/

/-- C1.  The claim says `sub $d, $s, $t` (and `subu`) stores
rs − rt = $s − $t into `$d`.  The code computes
`registers[args[2]] - registers[args[1]]`, i.e. $t − $s: with
`$t0 = 5` and `$t1 = 3`, `sub $t2, $t0, $t1` leaves
`$t2 = 3 − 5 mod 2^32 = 0xFFFFFFFE`, not the 2 the claim demands
(`subu` behaves identically).  This evaluates the full program through
`loadProgram` and `run`. -/
theorem sub_operands_swapped :
    ((run subProgState).toOption.map fun r =>
      (r.1.registers.getD 10 0, r.1.registers.getD 11 0, r.2, r.1.halted)) =
      some (4294967294, 4294967294, RunResult.ok 6, true) ∧
    toInt32 4294967294 = 3 - 5 ∧
    (4294967294 : Nat) ≠ toUint32 (5 - 3) :=
  ⟨rfl, by decide, by decide⟩

/-- C2.  Encoding `add $t0, $t1, $t2` yields 0x01494020, not the
canonical 0x012A4020: `encodeInstruction` passes `args[2]` as rs and
`args[1]` as rt, swapping the two source register fields.
`addi $t0, $zero, 1` does produce the canonical 0x20080001, but
`j 0x00400000` fails outright — a numeric jump target is looked up as a
label and load throws `Undefined label: 0x00400000` (a label resolving
to address 0x00400000 does encode to the canonical 0x08100000). -/
theorem encode_not_canonical :
    (loadProgram initState "add $t0, $t1, $t2").1.instructions.map
      (fun i => i.binary) = [0x01494020] ∧
    (0x01494020 : Nat) ≠ 0x012A4020 ∧
    (loadProgram initState "addi $t0, $zero, 1").1.instructions.map
      (fun i => i.binary) = [0x20080001] ∧
    loadProgram initState "j 0x00400000" =
      ({ initState with instructions := [] },
       some "Undefined label: 0x00400000") ∧
    (loadProgram initState "start: j start").1.instructions.map
      (fun i => i.binary) = [0x08100000] :=
  ⟨rfl, by decide, rfl, rfl, rfl⟩

/-- C3.  Register 0 reads as 0 at every observation point: it is 0 in
the freshly constructed state, 0 after `reset`, and after every `step`
it is 0 whenever an instruction committed (`executeInstruction` ends
with `registers[0] = 0`) while the refusing paths leave the register
file untouched. -/
theorem register_zero_invariant :
    initState.registers.headD 1 = 0 ∧
    (∀ s : SimState, s.registers ≠ [] → (reset s).registers.headD 1 = 0) ∧
    (∀ (s s' : SimState) (o : StepOutcome),
      s.registers.length = 32 → step s = Except.ok (s', o) →
      (o = StepOutcome.ok →
        s'.registers.headD 1 = 0 ∧ s'.registers.length = 32) ∧
      (o ≠ StepOutcome.ok → s'.registers = s.registers)) := by
  refine ⟨rfl, ?_, ?_⟩
  · intro s h
    cases hr : s.registers with
    | nil => exact absurd hr h
    | cons a l => simp [reset, hr]
  · intro s s' o hlen hstep
    unfold step at hstep
    split at hstep
    · simp only [Except.ok.injEq, Prod.mk.injEq] at hstep
      obtain ⟨h1, h2⟩ := hstep
      constructor
      · intro hc; rw [← h2] at hc; exact absurd hc (by simp)
      · intro _; rw [← h1]
    · split at hstep
      · simp only [Except.ok.injEq, Prod.mk.injEq] at hstep
        obtain ⟨h1, h2⟩ := hstep
        constructor
        · intro hc; rw [← h2] at hc; exact absurd hc (by simp)
        · intro _; rw [← h1]
      · split at hstep
        · exact absurd hstep (by simp)
        · rename_i s'' hexec
          simp only [Except.ok.injEq, Prod.mk.injEq] at hstep
          obtain ⟨h1, h2⟩ := hstep
          constructor
          · intro _
            obtain ⟨t, pc, hx, hregs⟩ := executeInstruction_shape _ _ _ hexec
            have hlt : t.registers.length = s.registers.length :=
              execSwitch_regs_len _ _ _ _ hx
            rw [← h1, hregs]
            constructor
            · exact headD_set_zero _
                (by intro hnil; rw [hnil] at hlt; simp [hlen] at hlt)
            · rw [List.length_set, hlt, hlen]
          · intro hc; rw [← h2] at hc; exact absurd rfl hc

/-- C3 witness: stepping a loaded `nop` once leaves register 0 at 0. -/
theorem register_zero_invariant_witness :
    nopLoaded.registers.length = 32 ∧ nopStepped.registers.headD 1 = 0 :=
  ⟨rfl, ((register_zero_invariant.2.2 nopLoaded nopStepped
      StepOutcome.ok rfl rfl).1 rfl).1⟩

/-- C4 (amended).  A failing `loadProgram` leaves every field except the
instruction stream untouched — but NOT the instruction stream itself:
`this.instructions` was reassigned before the encoding loop, so on
failure it holds the partially rebuilt stream of the NEW program. -/
theorem load_failure_frame :
    ∀ (s : SimState) (text : String) (s' : SimState) (e : String),
    loadProgram s text = (s', some e) →
    s'.registers = s.registers ∧ s'.memory = s.memory ∧ s'.PC = s.PC ∧
    s'.HI = s.HI ∧ s'.LO = s.LO ∧ s'.labels = s.labels ∧
    s'.loaded = s.loaded ∧ s'.halted = s.halted ∧ s'.cycle = s.cycle ∧
    s'.instructionCount = s.instructionCount := by
  intro s text s' e h
  unfold loadProgram at h
  dsimp only [] at h
  split at h
  · simp only [Prod.mk.injEq, Option.some.injEq] at h
    obtain ⟨h1, -⟩ := h
    rw [← h1]
    exact ⟨rfl, rfl, rfl, rfl, rfl, rfl, rfl, rfl, rfl, rfl⟩
  · simp only [Prod.mk.injEq] at h
    exact absurd h.2 (by simp)

/-- C4 witness: a load failing on an unknown mnemonic keeps all
non-instruction state of the previously loaded simulator. -/
theorem load_failure_frame_witness :
    (loadProgram nopLoaded "foo").1.registers = nopLoaded.registers ∧
    (loadProgram nopLoaded "foo").1.memory = nopLoaded.memory ∧
    (loadProgram nopLoaded "foo").1.PC = nopLoaded.PC ∧
    (loadProgram nopLoaded "foo").1.HI = nopLoaded.HI ∧
    (loadProgram nopLoaded "foo").1.LO = nopLoaded.LO ∧
    (loadProgram nopLoaded "foo").1.labels = nopLoaded.labels ∧
    (loadProgram nopLoaded "foo").1.loaded = nopLoaded.loaded ∧
    (loadProgram nopLoaded "foo").1.halted = nopLoaded.halted ∧
    (loadProgram nopLoaded "foo").1.cycle = nopLoaded.cycle ∧
    (loadProgram nopLoaded "foo").1.instructionCount =
      nopLoaded.instructionCount :=
  load_failure_frame nopLoaded "foo" (loadProgram nopLoaded "foo").1
    "Error encoding foo: Unknown instruction: foo" rfl

/-- C4 counterexample.  Load is NOT atomic as claimed: after a
successful load of `nop`, a failing load of `foo` leaves the
previously loaded one-instruction stream replaced by the empty
partial stream of the new program. -/
theorem load_failure_clobbers_instructions :
    (loadProgram nopLoaded "foo").2 =
      some "Error encoding foo: Unknown instruction: foo" ∧
    (loadProgram nopLoaded "foo").1.instructions = [] ∧
    nopLoaded.instructions ≠ [] :=
  ⟨rfl, rfl, by decide⟩

/-- C5.  `lb` feeds the loaded byte through `signExtend16`, which only
sign-extends from bit 15: storing byte 0x80 and loading it back with
`lb` leaves the register at 0x00000080, not the 0xFFFFFF80 =
4294967168 that the claim (sign extension from bit 7) demands. -/
theorem lb_not_sign_extended :
    ((run lbProgState).toOption.map fun r =>
      (r.1.registers.getD 10 0, r.2, r.1.halted)) =
      some (128, RunResult.ok 5, true) ∧ (128 : Nat) ≠ 4294967168 :=
  ⟨rfl, by decide⟩

/-- C6.  `div` computes `Math.floor(rs / rt)` — the FLOOR quotient —
while `%` gives the truncated remainder.  For rs = −7, rt = 2 the code
leaves LO = 0xFFFFFFFC (−4) and HI = 0xFFFFFFFF (−1), so
LO·rt + HI = −9 ≠ −7, violating the claimed identity; MIPS truncating
division would give LO = −3 with (−3)·2 + (−1) = −7.  The rt = 0 part
of the claim does hold: dividing by `$zero` leaves HI and LO exactly as
they were. -/
theorem div_floor_quotient :
    ((run divProgState).toOption.map fun r =>
      (r.1.registers.getD 10 0, r.1.registers.getD 11 0, r.2)) =
      some (4294967292, 4294967295, RunResult.ok 7) ∧
    toInt32 4294967292 = -4 ∧ toInt32 4294967295 = -1 ∧
    (-4 : Int) * 2 + -1 ≠ -7 ∧
    Int.tdiv (-7) 2 = -3 ∧ Int.tmod (-7) 2 = -1 ∧
    (-3 : Int) * 2 + -1 = -7 ∧
    ((executeInstruction initState
        ⟨none, "div", [.tok "$t0", .tok "$zero"], 0, 0⟩).toOption.map
      fun t => (t.HI, t.LO)) = some (initState.HI, initState.LO) :=
  ⟨rfl, by decide, by decide, by decide, by decide, by decide, by decide,
   rfl⟩

/-- C7 (amended).  `run` on a loaded, non-halted simulator returns
success with the step count exactly when the program halts within 9999
steps; whenever 10000 steps commit — even if the program halted on the
10000th — it returns the error `Maximum step limit reached`. -/
theorem run_step_cap_behavior (s : SimState) (hl : s.loaded = true)
    (hh : s.halted = false) :
    (∀ m t, m ≤ 9999 → goodSteps s m = some t → t.halted = true →
      run s = Except.ok (t, RunResult.ok m)) ∧
    (∀ t, goodSteps s 10000 = some t →
      run s = Except.ok (t, RunResult.fail "Maximum step limit reached")) := by
  have hrun : run s = runLoop 10000 s 0 := by
    unfold run
    rw [if_neg (by simp [hl, hh])]
  constructor
  · intro m t hm hg ht
    rw [hrun]
    have h := runLoop_halts m s 0 t hg ht (by omega) 10000 (by omega)
    simpa using h
  · intro t hg
    rw [hrun]
    exact runLoop_limit 10000 s 0 t hg (by omega)

/-- C7 witness: a two-instruction program halting at step 2 makes `run`
return success with 2 steps. -/
theorem run_step_cap_behavior_witness :
    run tinyHaltState = Except.ok (tinyHaltEnd, RunResult.ok 2) :=
  (run_step_cap_behavior tinyHaltState rfl rfl).1 2 tinyHaltEnd
    (by decide) rfl rfl

/-- C7 counterexample.  The boundary program halts via
`syscall`/`$v0 = 10` on exactly its 10000th committed instruction —
within the claimed limit — yet `run` reports the error
`Maximum step limit reached` (and `halted` is true, not false). -/
theorem run_limit_error_despite_halt :
    run boundaryState =
      Except.ok (boundaryEnd, RunResult.fail "Maximum step limit reached") ∧
    boundaryEnd.halted = true ∧ boundaryEnd.instructionCount = 10000 ∧
    goodSteps boundaryState 10000 = some boundaryEnd := by
  refine ⟨?_, rfl, rfl, boundary_good⟩
  have hrun : run boundaryState = runLoop 10000 boundaryState 0 := by
    unfold run
    rw [if_neg (by rw [show boundaryState.loaded = true from rfl,
      boundary_not_halted]; simp)]
  rw [hrun]
  exact runLoop_limit 10000 boundaryState 0 boundaryEnd boundary_good
    (by omega)

/-- C8.  The constructor zeroes registers, memory and LO and sets
`PC = 0x00400000`, but never assigns `this.HI`: in the freshly
constructed simulator `HI` is `undefined` (modelled as `none`), not 0. -/
theorem constructor_leaves_HI_undefined :
    initState.HI = none ∧ initState.HI ≠ some 0 ∧
    initState.registers = List.replicate 32 0 ∧
    initState.PC = 0x00400000 ∧ initState.LO = 0 ∧
    initState.memory = fun _ => 0 :=
  ⟨rfl, by decide, rfl, rfl, rfl, rfl⟩

/-- C9 (amended).  After a successful `loadProgram`, the i-th stored
instruction's `address` is `PC_at_load + 4·i` — the code uses
`this.PC`, not the constant 0x00400000, so the claimed base only holds
when load is invoked with the PC at its initial/reset value. -/
theorem load_addresses_follow_pc :
    ∀ (s : SimState) (text : String) (s' : SimState),
    loadProgram s text = (s', none) →
    ∀ j, j < s'.instructions.length →
      (s'.instructions.getD j noInstr).address = s.PC + (j : Int) * 4 := by
  intro s text s' h
  unfold loadProgram at h
  dsimp only [] at h
  split at h
  · simp only [Prod.mk.injEq] at h
    exact absurd h.2 (by simp)
  · rename_i out heq
    simp only [Prod.mk.injEq] at h
    obtain ⟨h1, -⟩ := h
    have hinstr : s'.instructions = out := by rw [← h1]
    obtain ⟨rest, hout, haddr⟩ := passTwo_addresses _ _ _ _ _ _ heq
    have hrest : s'.instructions = rest := by rw [hinstr, hout]; simp
    intro j hj
    rw [hrest] at hj ⊢
    have hja := haddr j hj
    simpa using hja

/-- C9 witness: loading two `nop`s on a fresh simulator (PC =
0x00400000) stores address 0x00400004 for index 1. -/
theorem load_addresses_follow_pc_witness :
    (twoNopState.instructions.getD 1 noInstr).address =
      initState.PC + (1 : Int) * 4 :=
  load_addresses_follow_pc initState "nop\nnop" twoNopState rfl 1
    (by decide)

/-- C9 counterexample.  Loading `nop` while `PC = 0x00400008` stores
load address 0x00400008 for instruction 0, not the claimed
`0x00400000 + 4·0`. -/
theorem load_address_depends_on_pc :
    (loadProgram movedPCState "nop").1.instructions.map
      (fun i => i.address) = [0x00400008] ∧
    (0x00400008 : Int) ≠ 0x00400000 :=
  ⟨rfl, by decide⟩

/-- C10 (amended).  `lh` and `sh` perform their two byte accesses at
the raw effective address `addr = (rs + offset) >>> 0` and `addr + 1`,
with NO masking of the low address bit (unlike `readWord`/`writeWord`,
which clear the low two bits); unaligned halfword accesses are simply
performed unaligned, silently. -/
theorem lh_sh_no_alignment_masking (s : SimState) (lbl : Option String)
    (rtStr rsStr : String) (off : Int) (bin : Nat) (adr : Int)
    (rt rb : Nat) (hrt : parseRegister rtStr = Except.ok rt)
    (hrb : parseRegister rsStr = Except.ok rb) :
    executeInstruction s
        ⟨lbl, "lh", [.tok rtStr, .offsetReg off rsStr], bin, adr⟩ =
      Except.ok { s with
        registers := (s.registers.set rt (toUint32 (signExtend16
          (readMemory s.memory (toUint32 ((regGet s rb : Int) + off)) * 256 +
           readMemory s.memory
             (toUint32 ((regGet s rb : Int) + off) + 1))))).set 0 0
        PC := s.PC + 4
        cycle := s.cycle + 1
        instructionCount := s.instructionCount + 1 } ∧
    executeInstruction s
        ⟨lbl, "sh", [.tok rtStr, .offsetReg off rsStr], bin, adr⟩ =
      Except.ok { s with
        registers := s.registers.set 0 0
        memory := writeMemory
          (writeMemory s.memory (toUint32 ((regGet s rb : Int) + off))
            (regGet s rt / 256 % 256))
          (toUint32 ((regGet s rb : Int) + off) + 1) (regGet s rt % 256)
        PC := s.PC + 4
        cycle := s.cycle + 1
        instructionCount := s.instructionCount + 1 } := by
  constructor
  all_goals (
    unfold executeInstruction execSwitch
    simp only [argN_zero, argN_one, argStr_tok, memOperand_offsetReg,
      hrt, hrb, bind_ok2, pure_ok, setReg]
    try norm_cast)

/-- C10 witness: `lh $t0, 1($zero)` on the zeroed simulator loads 0
through the unmasked address path. -/
theorem lh_sh_no_alignment_masking_witness :
    ((executeInstruction initState
        ⟨none, "lh", [.tok "$t0", .offsetReg 1 "$zero"], 0, 0⟩).toOption.map
      (fun t => t.registers.getD 8 0)) = some 0 := by
  rw [(lh_sh_no_alignment_masking initState none "$t0" "$zero" 1 0 0 8 0
    rfl rfl).1]
  rfl

/-- C10 counterexample.  `sh $t1, 1($zero)` with `$t1 = 0x2233` writes
bytes 1 and 2 (byte 0 stays 0), and `lh $t2, 1($zero)` reads 0x2233
back from bytes 1 and 2.  Under the claimed low-bit masking both
accesses would have used bytes 0 and 1, leaving `memory[0] = 0x22`. -/
theorem halfword_access_unmasked :
    ((run halfProgState).toOption.map fun r =>
      (r.1.memory 0, r.1.memory 1, r.1.memory 2,
       r.1.registers.getD 10 0, r.2)) =
      some (0, 0x22, 0x33, 0x2233, RunResult.ok 5) ∧ (0 : Nat) ≠ 0x22 :=
  ⟨rfl, by decide⟩

end MIPSSim
